import Mathlib

/-!
Verification of the wsh shell (repository nimit-pasricha/wsh).

The repository holds two near-duplicate implementations of the shell:
`src/main.c` and `solution/wsh.c` (plus `solution/dynamic_array.c`).
This file gives a shallow embedding of the command-resolution and
pipeline-validation engine of both, and proves or refutes the frozen
claims about it.

Conventions of the embedding:
* C strings become `String` / `List Char`; a NULL `char *` becomes `none`.
* The argv array of `substitute_alias` becomes a total function
  `Nat → String` (cells past the live region hold garbage, which the C
  code can and does read after its stale-length `memmove` calls);
  `free()` of a cell is a no-op on values.
* `access(path, X_OK)` becomes an oracle `String → Bool`, `chdir`
  becomes an oracle `String → String → Option String` (current
  directory, argument, resulting directory on success).
* Loops that the C bounds dynamically (alias expansion, tokenizing)
  are written with explicit fuel; lemmas below show the fuel chosen by
  the embedding is never exhausted, so the fuel is invisible.
* The hash map behind the alias table and the visited set
  (`hash_map.c`) is not among the source files; per the spec it is a
  string-keyed string map whose insert overwrites and whose lookup
  returns the bound value. It is modelled as an association list.
-/

/-! ## Tokenizer: `parseline_no_subst` (identical in both files) -/

/-- The single-quote character, written via its code point. -/
def singleQuote : Char := Char.ofNat 39

/-- Skip leading space characters, as the `while (*p == ' ') p++` loops do.
Only the plain space is skipped, exactly as in the source. -/
def skipSpaces : List Char → List Char
  | [] => []
  | c :: rest => if c = ' ' then skipSpaces rest else c :: rest

/-- `strchr`: split the list at the first occurrence of `c`, dropping it;
`none` when `c` does not occur. -/
def breakChar (c : Char) : List Char → Option (List Char × List Char)
  | [] => none
  | x :: xs =>
      if x = c then some ([], xs)
      else
        match breakChar c xs with
        | none => none
        | some p => some (x :: p.1, p.2)

/-- The newline fix-up at the top of `parseline_no_subst`: a final newline
is replaced by a space, otherwise a space is appended. -/
def fixLine (l : List Char) : List Char :=
  if l.getLast? = some '\n' then l.dropLast ++ [' '] else l ++ [' ']

/-- The buffer handed to the token scan: duplicated line, newline fix-up,
leading spaces skipped. -/
def prepLine (s : String) : List Char :=
  skipSpaces (fixLine s.toList)

/-- Outcome of the token scan: a token list, the unterminated-quote error,
or fuel exhaustion (proved unreachable below). -/
inductive ParseOut where
  | ok : List String → ParseOut
  | err : ParseOut
  | fuelOut : ParseOut
deriving DecidableEq

/-- The token scan loop of `parseline_no_subst`. A token starting with a
single quote runs to the matching quote (spaces included); a missing
closing quote discards the accumulated tokens and reports the error;
an unquoted token runs to the next space, and a tail with no space left
ends the scan. -/
def parseLoopF : Nat → List Char → List String → ParseOut
  | 0, _, _ => ParseOut.fuelOut
  | _ + 1, [], acc => ParseOut.ok acc.reverse
  | fuel + 1, c :: rest, acc =>
      if c = singleQuote then
        match breakChar singleQuote rest with
        | none => ParseOut.err
        | some pr => parseLoopF fuel (skipSpaces pr.2) (pr.1.asString :: acc)
      else
        match breakChar ' ' (c :: rest) with
        | none => ParseOut.ok acc.reverse
        | some pr => parseLoopF fuel (skipSpaces pr.2) (pr.1.asString :: acc)

/-- `parseline_no_subst`: tokens of one raw line plus an error flag; on a
missing closing quote the tokens parsed so far are discarded and the
result is the empty vector with the error reported. -/
def parseline_no_subst (s : String) : List String × Bool :=
  match parseLoopF ((prepLine s).length + 1) (prepLine s) [] with
  | ParseOut.ok toks => (toks, false)
  | ParseOut.err => ([], true)
  | ParseOut.fuelOut => ([], true)

/-- Just the token list of `parseline_no_subst` (what `argv`/`argc` hold). -/
def parseToks (s : String) : List String :=
  (parseline_no_subst s).1

lemma skipSpaces_length_le (l : List Char) : (skipSpaces l).length ≤ l.length := by
  induction l with
  | nil => simp [skipSpaces]
  | cons c rest ih =>
      by_cases h : c = ' '
      · simp [skipSpaces, h]; omega
      · simp [skipSpaces, h]

lemma breakChar_length {c : Char} :
    ∀ {l a b : List Char}, breakChar c l = some (a, b) → b.length < l.length := by
  intro l
  induction l with
  | nil => intro a b h; simp [breakChar] at h
  | cons x xs ih =>
      intro a b h
      by_cases hx : x = c
      · simp only [breakChar, hx, if_true] at h
        have hxb : xs = b := by
          have := h
          injection this with h1
          exact congrArg Prod.snd h1
        simp [← hxb]
      · simp only [breakChar, hx, if_false] at h
        rcases hb : breakChar c xs with _ | p
        · rw [hb] at h; simp at h
        · rw [hb] at h
          simp only [Option.some.injEq] at h
          have hlt := ih hb
          have hpb : p.2 = b := congrArg Prod.snd h
          simp [← hpb]
          omega

/-- The scan fuel `length + 1` is never exhausted: every iteration
consumes at least one character. -/
lemma parseLoopF_ne_fuelOut :
    ∀ (fuel : Nat) (l : List Char) (acc : List String),
      l.length < fuel → parseLoopF fuel l acc ≠ ParseOut.fuelOut := by
  intro fuel
  induction fuel with
  | zero => intro l acc h; omega
  | succ n ih =>
      intro l acc h
      match l with
      | [] => simp [parseLoopF]
      | c :: rest =>
          simp only [parseLoopF]
          by_cases hq : c = singleQuote
          · simp only [hq, if_true]
            rcases hb : breakChar singleQuote rest with _ | pr
            · simp
            · have h1 := breakChar_length hb
              have h2 := skipSpaces_length_le pr.2
              apply ih
              simp at h
              omega
          · simp only [hq, if_false]
            rcases hb : breakChar ' ' (c :: rest) with _ | pr
            · simp
            · have h1 := breakChar_length hb
              have h2 := skipSpaces_length_le pr.2
              apply ih
              simp at h
              simp at h1
              omega

example : parseToks "ls -l" = ["ls", "-l"] := by decide
example : parseline_no_subst "\x27a b\x27 c" = (["a b", "c"], false) := by decide
example : parseline_no_subst "\x27a" = ([], true) := by decide
example : parseToks "   " = [] := by decide
example : parseToks "echo hi\n" = ["echo", "hi"] := by decide

/-! ## Alias table and `substitute_alias` (identical in both files) -/

/-- Modelled from the spec: `hash_map.c` is not among the source files;
its contract is a string-keyed string map. `hm_get` returns the bound
value (`none` for the NULL of an absent key; note a key bound to the
empty string is present). -/
def aliasGet : List (String × String) → String → Option String
  | [], _ => none
  | (k, v) :: rest, key => if k = key then some v else aliasGet rest key

/-- Modelled from the spec: `hm_put` binds a key, overwriting any
previous binding. -/
def aliasPut (A : List (String × String)) (k v : String) : List (String × String) :=
  if (aliasGet A k).isSome then A.map (fun p => if p.1 = k then (k, v) else p)
  else A ++ [(k, v)]

/-- Modelled from the spec: `hm_delete` removes a binding (no effect when
absent). -/
def aliasDel (A : List (String × String)) (k : String) : List (String × String) :=
  A.filter (fun p => p.1 != k)

/-- Outcome of the `while` loop of `substitute_alias`. `early` is a
`return` from inside the loop (which skips the final
`*argc += new_argc - 1` adjustment); `normal` is a normal loop exit,
carrying the final `new_argc` for that adjustment. `cnt` counts the
splices performed. The argv array is a total function; `*argc` is the
stale count the C never updates inside the loop. -/
inductive SubstOut where
  | early : (Nat → String) → Nat → Nat → SubstOut
  | normal : (Nat → String) → Nat → Nat → Nat → SubstOut
  | fuelOut : SubstOut

/-- The two `memmove` calls of one splice step:
`memmove(argv + new_argc - 1, argv, *argc * sizeof(char *))` followed by
`memmove(argv, new_argv, new_argc * sizeof(char *))` (the intervening
`free(argv[new_argc - 1])` does not change cell values). The shift uses
the stale `*argc`, exactly as the source does. -/
def substStepArr (arr : Nat → String) (newToks : List String) (argc : Nat) : Nat → String :=
  fun i =>
    if i < newToks.length then newToks.getD i ""
    else if newToks.length - 1 ≤ i ∧ i < newToks.length - 1 + argc then
      arr (i - (newToks.length - 1))
    else arr i

/-- The `while (command != NULL && keep_going)` loop of
`substitute_alias`. Arguments: alias table, fuel, the pending
`command = hm_get(alias_hm, argv[0])`, the visited set `seen_elements`,
the argv array, the stale `*argc`, the current `new_argc` (initialised
to 1 before the loop), and the splice counter. -/
def substLoop (A : List (String × String)) :
    Nat → Option String → List String → (Nat → String) → Nat → Nat → Nat → SubstOut
  | _, none, _, arr, argc, na, cnt => SubstOut.normal arr argc na cnt
  | 0, some _, _, _, _, _, _ => SubstOut.fuelOut
  | fuel + 1, some cmd, seen, arr, argc, _, cnt =>
      if (parseToks cmd).length = 0 then
        -- aliased to the empty string: drop the first argument (or the
        -- whole vector when it was the only one) and return at once
        if argc = 1 then SubstOut.early arr 0 cnt
        else SubstOut.early (fun i => if i < argc - 1 then arr (i + 1) else arr i) (argc - 1) cnt
      else if seen.contains (arr 0) then
        -- circular alias: stop, returning the vector as substituted so far
        SubstOut.early arr argc cnt
      else if (parseToks cmd).headD "" = arr 0 then
        -- direct self-reference: perform this splice, then leave the loop
        SubstOut.normal (substStepArr arr (parseToks cmd) argc) argc (parseToks cmd).length (cnt + 1)
      else
        substLoop A fuel
          (aliasGet A (substStepArr arr (parseToks cmd) argc 0))
          (arr 0 :: seen)
          (substStepArr arr (parseToks cmd) argc)
          argc (parseToks cmd).length (cnt + 1)

/-- `substitute_alias`: rewrites the leading token of the argument vector
through the alias table. Returns the final vector (the cells below the
final `*argc`, after `argv[*argc] = NULL`) and the number of splices;
`none` is fuel exhaustion, proved unreachable below. -/
def substitute_alias (A : List (String × String)) (args : List String) :
    Option (List String × Nat) :=
  if args.length = 0 then some (args, 0)
  else
    match substLoop A (A.length + 1) (aliasGet A (args.headD "")) []
        (fun i => args.getD i "") args.length 1 0 with
    | SubstOut.early arr argc cnt => some ((List.range argc).map arr, cnt)
    | SubstOut.normal arr argc na cnt => some ((List.range (argc + na - 1)).map arr, cnt)
    | SubstOut.fuelOut => none

/-- The vector produced by `substitute_alias` (callers read `argv` and
`*argc` after the call). -/
def substVec (A : List (String × String)) (args : List String) : List String :=
  ((substitute_alias A args).getD ([], 0)).1

example : substitute_alias [("ls", "ls -l")] ["ls"] = some (["ls", "-l"], 1) := by decide
example : substitute_alias [("X", "Y"), ("Y", "X")] ["X"] = some (["X"], 2) := by decide
example : substitute_alias [("a", "b x"), ("b", "c")] ["a", "z"] = some (["c", "x"], 2) := by decide
example : substitute_alias [("noop", "")] ["noop"] = some ([], 0) := by decide
example : substitute_alias [("noop", "")] ["noop", "echo", "hi"] = some (["echo", "hi"], 0) := by decide
example : substitute_alias [] ["echo", "hi"] = some (["echo", "hi"], 0) := by decide

/-! ## Command path resolution -/

/-- Does the name start with a dot or a slash (`command[0]`, reading the
terminating NUL of an empty string as neither)? -/
def startsDotSlash (s : String) : Bool :=
  s.toList.headD (Char.ofNat 0) = '.' || s.toList.headD (Char.ofNat 0) = '/'

/-- Accumulate the maximal nonempty runs of non-colon characters
(`cur` holds the run being read, reversed). -/
def splitColonsAux : List Char → List Char → List String
  | [], cur => if cur.isEmpty then [] else [cur.reverse.asString]
  | c :: rest, cur =>
      if c = ':' then
        if cur.isEmpty then splitColonsAux rest []
        else cur.reverse.asString :: splitColonsAux rest []
      else splitColonsAux rest (c :: cur)

/-- The token sequence `strtok(path, ":")` yields: the maximal nonempty
runs of non-colon characters. -/
def splitColons (s : String) : List String :=
  splitColonsAux s.toList []

/-- Scan the PATH directories left to right for the first `dir/cmd` the
oracle accepts. -/
def scanPath (ex : String → Bool) (ps : String) (cmd : String) : Option String :=
  (splitColons ps).findSome? (fun d => if ex (d ++ "/" ++ cmd) then some (d ++ "/" ++ cmd) else none)

/-- The resolution both implementations compute: an explicit `./`-or-`/`
path is accepted iff executable; otherwise an absent or empty PATH fails,
and otherwise the PATH directories are scanned in order. -/
def resolveExec (ex : String → Bool) (p : Option String) (cmd : String) : Option String :=
  if startsDotSlash cmd then (if ex cmd then some cmd else none)
  else
    match p with
    | none => none
    | some ps => if ps = "" then none else scanPath ex ps cmd

/-- `get_command_path` of `src/main.c`: it runs `strtok` on a `strdup` of
the PATH value, so the environment variable is returned unchanged
(second component: the PATH value after the call). -/
def get_command_path_main (ex : String → Bool) (p : Option String) (cmd : String) :
    Option String × Option String :=
  (resolveExec ex p cmd, p)

/-- The value left in the PATH environment string after `strtok` has run
on it in place: the first call writes NUL over the colon that ends the
first directory name (when such a colon exists), so `getenv` afterwards
sees the string truncated there; with no such colon the string is
unchanged. The flag records whether a non-colon character was seen. -/
def cutFirstTok : Bool → List Char → List Char
  | _, [] => []
  | seenTok, c :: rest =>
      if c = ':' then (if seenTok then [] else ':' :: cutFirstTok false rest)
      else c :: cutFirstTok true rest

/-- PATH value after an in-place `strtok` scan. -/
def strtokCutFirst (s : String) : String :=
  (cutFirstTok false s.toList).asString

/-- `get_command_path` of `solution/wsh.c`: same resolution, but `strtok`
runs directly on the `getenv("PATH")` string, truncating the variable in
place whenever the scan is reached. -/
def get_command_path_wsh (ex : String → Bool) (p : Option String) (cmd : String) :
    Option String × Option String :=
  if startsDotSlash cmd then ((if ex cmd then some cmd else none), p)
  else
    match p with
    | none => (none, none)
    | some ps =>
        if ps = "" then (none, some ps)
        else (scanPath ex ps cmd, some (strtokCutFirst ps))

/-- The seven builtin names (`is_builtin_command` of `src/main.c` returns
0 exactly for these; the Bool here is true for a builtin). -/
def is_builtin_command (s : String) : Bool :=
  s ∈ ["exit", "alias", "unalias", "which", "path", "cd", "history"]

/-- `which_command` (`solution/wsh.c`): report alias, builtin, explicit
path, or PATH-resolved command. Returns the C return code and the PATH
value after the call: like `get_command_path_wsh` it runs `strtok` on
the environment string in place when it reaches the scan. -/
def which_command (A : List (String × String)) (ex : String → Bool)
    (p : Option String) (toks : List String) : Int × Option String :=
  if toks.length ≠ 2 then (1, p)
  else
    let name := toks.getD 1 ""
    if (aliasGet A name).isSome then (0, p)
    else if is_builtin_command name then (0, p)
    else if startsDotSlash name then (if ex name then (0, p) else (1, p))
    else
      match p with
      | none => (-1, p)
      | some ps =>
          if ps = "" then (-1, some ps)
          else if (scanPath ex ps name).isSome then (0, some (strtokCutFirst ps))
          else (1, some (strtokCutFirst ps))

example : get_command_path_wsh (fun _ => false) (some "/a:/b") "x" = (none, some "/a") := by decide
example : get_command_path_main (fun _ => false) (some "/a:/b") "x" = (none, some "/a:/b") := by decide
example : get_command_path_wsh (fun _ => true) (some "/a") "x" = (some "/a/x", some "/a") := by decide
example : strtokCutFirst "::a:b" = "::a" := by decide

/-! ## Dynamic array (`solution/dynamic_array.c`) and history -/

/-- The history container. `alive` records whether the container has been
deallocated by `da_free` (after which it is unusable for the rest of the
session). -/
structure DynArr where
  data : List String
  alive : Bool
deriving DecidableEq

/-- `da_put`: append at the end. -/
def da_put (d : DynArr) (v : String) : DynArr :=
  { d with data := d.data ++ [v] }

/-- `da_get`: element at an index — but an out-of-range index calls
`da_free(da)` on the whole container before returning NULL. -/
def da_get (d : DynArr) (i : Nat) : Option String × DynArr :=
  if d.data.length ≤ i then (none, { d with alive := false })
  else (some (d.data.getD i ""), d)

/-- `da_delete`: remove at an index, packing the tail — but an
out-of-range index likewise calls `da_free(da)` on the container. -/
def da_delete (d : DynArr) (i : Nat) : DynArr :=
  if d.data.length ≤ i then { d with alive := false }
  else { d with data := d.data.eraseIdx i }

/-! ## `strtol` and machine-integer conversions used by `show_history` -/

/-- The white-space class of C `isspace`. -/
def cIsSpace (c : Char) : Bool :=
  c = ' ' || c = '\t' || c = '\n' || c = Char.ofNat 11 || c = Char.ofNat 12 || c = '\r'

/-- Numeric value of a digit run. -/
def digitsVal (l : List Char) : Int :=
  l.foldl (fun a c => a * 10 + Int.ofNat (c.toNat - Char.toNat '0')) 0

/-- `strtol(s, &endptr, 10)` before range clamping: skip white space, an
optional sign, then digits; with no digits the value is 0 and `endptr`
is reset to the start of the string. Returns the value and the suffix
`endptr` points at. -/
def strtolRaw (l : List Char) : Int × List Char :=
  let l1 := l.dropWhile cIsSpace
  let sgn : Int := if l1.headD (Char.ofNat 0) = '-' then -1 else 1
  let l2 := if l1.headD (Char.ofNat 0) = '-' || l1.headD (Char.ofNat 0) = '+' then l1.tail else l1
  let ds := l2.takeWhile Char.isDigit
  if ds.isEmpty then (0, l)
  else (sgn * digitsVal ds, l2.dropWhile Char.isDigit)

/-- `strtol` clamps to the `long` range on overflow. -/
def clampLong (x : Int) : Int :=
  if x > 2 ^ 63 - 1 then 2 ^ 63 - 1 else if x < -(2 ^ 63) then -(2 ^ 63) else x

/-- Conversion of the `long` to the `int` variable `i` (two's-complement
wrap-around). -/
def wrap32 (x : Int) : Int :=
  (x + 2 ^ 31) % 2 ^ 32 - 2 ^ 31

/-- Conversion of `i - 1` to the `size_t` index handed to `da_get`. -/
def toSizeT (x : Int) : Nat :=
  (x % 2 ^ 64).toNat

/-- `show_history`: no argument prints all entries; one argument must
parse fully as an integer, and the (1-indexed) entry is looked up with
`da_get` — so an out-of-range index both reports the invalid argument
and deallocates the history container. Returns the C return code and
the history container after the call. -/
def show_history (d : DynArr) (toks : List String) : Int × DynArr :=
  if toks.length = 1 then (0, d)
  else if toks.length = 2 then
    if (strtolRaw (toks.getD 1 "").toList).2 ≠ [] then (1, d)
    else
      let i : Int := wrap32 (clampLong (strtolRaw (toks.getD 1 "").toList).1)
      let r := da_get d (toSizeT (i - 1))
      if r.1.isSome then (0, r.2) else (1, r.2)
  else (1, d)

example : show_history ⟨["a\n", "b\n", "c\n"], true⟩ ["history", "2"] = (0, ⟨["a\n", "b\n", "c\n"], true⟩) := by decide
example : show_history ⟨["a\n", "b\n", "c\n"], true⟩ ["history", "4"] = (1, ⟨["a\n", "b\n", "c\n"], false⟩) := by decide
example : show_history ⟨["a\n", "b\n", "c\n"], true⟩ ["history", "0"] = (1, ⟨["a\n", "b\n", "c\n"], false⟩) := by decide
example : show_history ⟨["a\n", "b\n", "c\n"], true⟩ ["history", "2x"] = (1, ⟨["a\n", "b\n", "c\n"], true⟩) := by decide

/-! ## The remaining builtins and the session state -/

/-- `exit_shell`: any argument beyond the name is a usage error (return
code 1); otherwise 0, which the dispatcher turns into
terminate-the-shell. -/
def exit_shell (argc : Nat) : Nat :=
  if argc > 1 then 1 else 0

/-- `create_alias`: no extra argument prints the table; the accepted
insert form has at most 4 arguments, the word `=` at index 2 and nowhere
else, and a nonempty name free of white space; with 3 arguments the
value is the empty string. Returns the C return code and the table. -/
def create_alias (A : List (String × String)) (toks : List String) :
    Nat × List (String × String) :=
  let argc := toks.length
  if argc > 4 then (1, A)
  else if argc = 1 then (0, A)
  else if (List.range argc).any (fun i => toks.getD i "" == "=" && i != 2) then (1, A)
  else if toks.getD 2 "" != "=" then (1, A)
  else if toks.getD 1 "" = "" then (1, A)
  else if (toks.getD 1 "").toList.any cIsSpace then (1, A)
  else (0, aliasPut A (toks.getD 1 "") (if argc = 3 then "" else toks.getD 3 ""))

/-- `unalias`: exactly one argument deletes the binding (absent names are
no error); any other shape is a usage error. -/
def unalias (A : List (String × String)) (toks : List String) :
    Nat × List (String × String) :=
  if toks.length = 2 then (0, aliasDel A (toks.getD 1 "")) else (1, A)

/-- `path_set_and_get`: no argument prints PATH (failing when it is
unset); one argument replaces it. Returns the code and the PATH value
after the call. -/
def path_set_and_get (p : Option String) (toks : List String) : Nat × Option String :=
  if toks.length = 1 then
    match p with
    | none => (1, p)
    | some _ => (0, p)
  else if toks.length = 2 then (0, some (toks.getD 1 ""))
  else (1, p)

/-- The operating-system oracles the builtins consult: `chdir` (current
directory and argument to resulting directory, `none` on failure),
`access(·, X_OK)`, and the HOME variable. -/
structure OS where
  chdirRes : String → String → Option String
  execOk : String → Bool
  home : Option String

/-- `change_directory`: one argument changes to it; none changes to HOME
(failing when HOME is unset). Returns the code and the working directory
after the call. -/
def change_directory (os : OS) (cwd : String) (toks : List String) : Nat × String :=
  if toks.length = 2 then
    match os.chdirRes cwd (toks.getD 1 "") with
    | some c => (0, c)
    | none => (1, cwd)
  else if toks.length = 1 then
    match os.home with
    | none => (1, cwd)
    | some h =>
        match os.chdirRes cwd h with
        | some c => (0, c)
        | none => (1, cwd)
  else (1, cwd)

/-- The session state a shell process owns: working directory, alias
table, history store, PATH. A spawned child starts from a copy of the
parent's session. -/
structure Session where
  cwd : String
  aliases : List (String × String)
  history : DynArr
  path : Option String
deriving DecidableEq

/-- The builtin dispatcher (`check_builtins` in `solution/wsh.c`,
`execute_builtin` in `src/main.c`): runs the builtin against the given
session state and returns the updated state with the dispatch code —
0 success, 1 error, 2 terminate-the-shell, -1 not a builtin. -/
def execute_builtin (os : OS) (st : Session) (toks : List String) : Session × Int :=
  if toks.length = 0 then (st, 0)
  else if toks.headD "" = "exit" then
    (st, if exit_shell toks.length = 0 then 2 else 1)
  else if toks.headD "" = "alias" then
    let r := create_alias st.aliases toks
    ({ st with aliases := r.2 }, Int.ofNat r.1)
  else if toks.headD "" = "unalias" then
    let r := unalias st.aliases toks
    ({ st with aliases := r.2 }, Int.ofNat r.1)
  else if toks.headD "" = "which" then
    let r := which_command st.aliases os.execOk st.path toks
    ({ st with path := r.2 }, r.1)
  else if toks.headD "" = "path" then
    let r := path_set_and_get st.path toks
    ({ st with path := r.2 }, Int.ofNat r.1)
  else if toks.headD "" = "cd" then
    let r := change_directory os st.cwd toks
    ({ st with cwd := r.2 }, Int.ofNat r.1)
  else if toks.headD "" = "history" then
    let r := show_history st.history toks
    ({ st with history := r.2 }, r.1)
  else (st, -1)

/-! ## Pipeline validation and spawning -/

/-- Tokenize one pipe segment and run alias substitution on it, as every
execution and validation site does (`parseline_no_subst` followed by
`substitute_alias`). -/
def segToks (A : List (String × String)) (seg : String) : List String :=
  substVec A (parseToks seg)

/-- A segment is invalid in the validation pass of `src/main.c`:
resolution yields zero arguments, or the first argument is neither a
builtin name nor resolvable to an executable (`is_builtin_command`
returns nonzero and `get_command_path` NULL). Every invalid segment
raises a warning, which records failure in the session's status. -/
def segInvalid (ex : String → Bool) (p : Option String) (A : List (String × String))
    (seg : String) : Bool :=
  (segToks A seg).length = 0 ||
    (!is_builtin_command ((segToks A seg).headD "") &&
      (get_command_path_main ex p ((segToks A seg).headD "")).1.isNone)

/-- The validation loop of the multi-segment branch of `src/main.c`
(`interactive_main` and `batch_main`): `is_valid_pipeline` starts true
and is cleared by any invalid segment. -/
def validate_pipeline (ex : String → Bool) (p : Option String)
    (A : List (String × String)) (segs : List String) : Bool :=
  segs.foldl (fun ok s => if segInvalid ex p A s then false else ok) true

/-- The multi-segment branch of `src/main.c`: when validation fails, the
spawn loop is never entered (zero `fork` calls) and the warnings have
set the failure status; when it succeeds, one process is forked per
segment. Result: (number of processes spawned, failure recorded). -/
def pipeline_main (ex : String → Bool) (p : Option String)
    (A : List (String × String)) (segs : List String) : Nat × Bool :=
  if validate_pipeline ex p A segs then (segs.length, false) else (0, true)

/-- The multi-segment branch of `solution/wsh.c` (`interactive_main`):
there is no validation pass — the loop forks one child per segment
unconditionally, and each child checks its own segment only after the
fork; the parent records no failure. Result: (number of processes
spawned, failure recorded by the parent). -/
def pipeline_wsh (segs : List String) : Nat × Bool :=
  (segs.foldl (fun n _ => n + 1) 0, false)

/-- What one spawned child of the multi-segment branch does to its
private copy of the session: re-tokenize and re-resolve its segment;
an empty segment exits without touching the state; a builtin runs
in-process-within-child on the copy; an external command (or a failed
resolution) leaves the session fields as they are. The resulting state
dies with the child. -/
def childRun (os : OS) (st : Session) (seg : String) : Session :=
  if (segToks st.aliases seg).length = 0 then st
  else (execute_builtin os st (segToks st.aliases seg)).1

/-- The parent's side of one multi-segment line in `src/main.c`:
validate (reading the session only), spawn the children on copies when
valid, close the pipes, append the raw line to the history, and await
the children. First component: the parent session afterwards; second:
the children's discarded final states. -/
def runPipeline_main (os : OS) (st : Session) (line : String) (segs : List String) :
    Session × List Session :=
  ({ st with history := da_put st.history line },
   if validate_pipeline os.execOk st.path st.aliases segs
   then segs.map (childRun os st) else [])

/-! ## Spec-side predicate for the unterminated-quote claim -/

/-- Modelled from the spec: the line contains a token opened with a
single quote whose closing quote never arrives. Scans tokens exactly as
the tokenizer walks them, answering true at an opening quote with no
later quote character. -/
def scanUnclosedF : Nat → List Char → Bool
  | 0, _ => false
  | _ + 1, [] => false
  | fuel + 1, c :: rest =>
      if c = singleQuote then
        match breakChar singleQuote rest with
        | none => true
        | some pr => scanUnclosedF fuel (skipSpaces pr.2)
      else
        match breakChar ' ' (c :: rest) with
        | none => false
        | some pr => scanUnclosedF fuel (skipSpaces pr.2)

/-- Modelled from the spec: a token of the line is opened with a quote
but never closed. -/
def specHasUnterminatedQuote (s : String) : Bool :=
  scanUnclosedF ((prepLine s).length + 1) (prepLine s)

/-! ## Concrete instances used by witnesses and counterexamples -/

/-- An oracle world where `/bin` holds `ls`, `wc` and `true`, `chdir`
always succeeds, and HOME is unset. -/
def os0 : OS :=
  { chdirRes := fun _ d => some d
    execOk := fun s => s == "/bin/ls" || s == "/bin/wc" || s == "/bin/true"
    home := none }

/-- A session at `/root` with no aliases, empty history and the default
PATH. -/
def st0 : Session :=
  { cwd := "/root", aliases := [], history := ⟨[], true⟩, path := some "/bin" }

/-- A world where nothing is executable. -/
def noExec : String → Bool := fun _ => false

lemma aliasGet_mem {A : List (String × String)} {k v : String}
    (h : aliasGet A k = some v) : k ∈ A.map Prod.fst := by
  induction A with
  | nil => simp [aliasGet] at h
  | cons p rest ih =>
      by_cases hp : p.1 = k
      · simp [hp]
      · rw [show p = (p.1, p.2) from rfl] at h
        simp only [aliasGet, hp, if_false] at h
        simp [ih h]

/-- Each pass of the loop either returns or moves a table key into the
visited set, so the fuel `|A| + 1` chosen by `substitute_alias` is never
exhausted: the Visited-Set together with the self-reference check bounds
the loop. -/
lemma substLoop_ne_fuelOut (A : List (String × String)) :
    ∀ (fuel : Nat) (seen : List String) (arr : Nat → String) (argc na cnt : Nat),
      ((A.map Prod.fst).toFinset \ seen.toFinset).card < fuel →
      substLoop A fuel (aliasGet A (arr 0)) seen arr argc na cnt ≠ SubstOut.fuelOut := by
  intro fuel
  induction fuel with
  | zero => intro seen arr argc na cnt h; omega
  | succ n ih =>
      intro seen arr argc na cnt h
      rcases hcmd : aliasGet A (arr 0) with _ | cmd
      · simp [substLoop]
      · simp only [substLoop]
        split
        · split <;> simp
        · split
          · simp
          · split
            · simp
            · rename_i hlen hseen hself
              apply ih
              have ha1 : arr 0 ∈ (A.map Prod.fst).toFinset :=
                List.mem_toFinset.mpr (aliasGet_mem hcmd)
              have ha2 : arr 0 ∉ seen.toFinset := by
                rw [List.mem_toFinset]
                intro hmem
                apply hseen
                simpa using hmem
              have hlt : ((A.map Prod.fst).toFinset \ (arr 0 :: seen).toFinset).card <
                  ((A.map Prod.fst).toFinset \ seen.toFinset).card := by
                apply Finset.card_lt_card
                rw [List.toFinset_cons]
                constructor
                · intro x hx
                  rw [Finset.mem_sdiff] at hx ⊢
                  refine ⟨hx.1, fun hmem => hx.2 (Finset.mem_insert_of_mem hmem)⟩
                · intro hsub
                  have := hsub (Finset.mem_sdiff.mpr ⟨ha1, ha2⟩)
                  rw [Finset.mem_sdiff] at this
                  exact this.2 (Finset.mem_insert_self _ _)
              omega

lemma getD_zero_eq_headD (args : List String) : args.getD 0 "" = args.headD "" := by
  cases args <;> simp

lemma validate_pipeline_foldl (ex : String → Bool) (p : Option String)
    (A : List (String × String)) :
    ∀ (segs : List String) (acc : Bool),
      segs.foldl (fun ok s => if segInvalid ex p A s then false else ok) acc =
        (acc && !segs.any (segInvalid ex p A)) := by
  intro segs
  induction segs with
  | nil => intro acc; simp
  | cons s rest ih =>
      intro acc
      simp only [List.foldl, List.any]
      rw [ih]
      by_cases hs : segInvalid ex p A s = true
      · simp [hs]
      · simp [hs]

lemma scanUnclosed_parseLoop_err :
    ∀ (fuel : Nat) (l : List Char) (acc : List String),
      scanUnclosedF fuel l = true → parseLoopF fuel l acc = ParseOut.err := by
  intro fuel
  induction fuel with
  | zero => intro l acc h; simp [scanUnclosedF] at h
  | succ n ih =>
      intro l acc h
      match l with
      | [] => simp [scanUnclosedF] at h
      | c :: rest =>
          simp only [scanUnclosedF] at h
          simp only [parseLoopF]
          by_cases hq : c = singleQuote
          · simp only [hq, if_true] at h ⊢
            rcases hb : breakChar singleQuote rest with _ | pr
            · rfl
            · rw [hb] at h
              exact ih _ _ h
          · simp only [hq, if_false] at h ⊢
            rcases hb : breakChar ' ' (c :: rest) with _ | pr
            · rw [hb] at h
              exact Bool.noConfusion h
            · rw [hb] at h
              exact ih _ _ h

/-! ## The claims -/

/-- Claim C3: alias resolution terminates for every argument vector and
every finite alias table: the rewriting loop always completes within the
fuel `|table| + 1`, because each pass either returns or adds an unvisited
table key to the per-call Visited-Set, and a direct self-reference ends
the loop after its splice. -/
theorem substitute_alias_terminates (A : List (String × String)) (args : List String) :
    (substitute_alias A args).isSome = true := by
  unfold substitute_alias
  by_cases h0 : args.length = 0
  · simp [h0]
  · simp only [h0, if_false]
    have hb : ((A.map Prod.fst).toFinset \ ([] : List String).toFinset).card < A.length + 1 := by
      have h1 : (A.map Prod.fst).toFinset.card ≤ (A.map Prod.fst).length :=
        (A.map Prod.fst).toFinset_card_le
      simp only [List.toFinset_nil, Finset.sdiff_empty]
      simp at h1
      omega
    have hne := substLoop_ne_fuelOut A (A.length + 1) [] (fun i => args.getD i "") args.length 1 0 hb
    rw [show (fun i => args.getD i "") 0 = args.headD "" from getD_zero_eq_headD args] at hne
    cases hsub : substLoop A (A.length + 1) (aliasGet A (args.headD "")) []
        (fun i => args.getD i "") args.length 1 0 with
    | early arr argc cnt => simp
    | normal arr argc na cnt => simp
    | fuelOut => exact absurd hsub hne

/-- Claim C1 (amended): in the validate-then-spawn implementation
(`src/main.c`), a multi-segment pipeline with any invalid segment spawns
zero processes and records failure as the line's result. (The draft in
`solution/wsh.c` instead forks one child per segment unconditionally;
see the counterexample.) -/
theorem pipeline_prevalidation_aborts_before_spawn
    (ex : String → Bool) (p : Option String) (A : List (String × String))
    (segs : List String) (_h2 : 2 ≤ segs.length)
    (hinv : ∃ s ∈ segs, segInvalid ex p A s = true) :
    pipeline_main ex p A segs = (0, true) := by
  have hany : segs.any (segInvalid ex p A) = true := by
    rw [List.any_eq_true]
    obtain ⟨s, hs, h⟩ := hinv
    exact ⟨s, hs, h⟩
  unfold pipeline_main validate_pipeline
  rw [validate_pipeline_foldl]
  simp [hany]

/-- Claim C1 witness: a 3-segment pipeline whose middle command does not
exist spawns nothing under the validating implementation, and the line's
result is failure. -/
theorem pipeline_prevalidation_aborts_before_spawn_witness :
    (2 ≤ (["ls ", " mystery ", " wc "] : List String).length ∧
      ∃ s ∈ (["ls ", " mystery ", " wc "] : List String),
        segInvalid os0.execOk (some "/bin") [] s = true) ∧
    pipeline_main os0.execOk (some "/bin") [] ["ls ", " mystery ", " wc "] = (0, true) :=
  ⟨⟨by decide, by decide⟩,
   pipeline_prevalidation_aborts_before_spawn os0.execOk (some "/bin") []
     ["ls ", " mystery ", " wc "] (by decide) (by decide)⟩

/-- Claim C1 counterexample: the `solution/wsh.c` pipeline branch forks
one process per segment before any viability check, so the same
3-segment line with a nonexistent middle command spawns three processes,
not zero, and the parent records no failure. -/
theorem wsh_pipeline_spawns_despite_invalid_segment :
    segInvalid os0.execOk (some "/bin") [] " mystery " = true ∧
    pipeline_wsh ["ls ", " mystery ", " wc "] = (3, false) ∧ (3 : Nat) ≠ 0 :=
  ⟨by decide, by decide, by decide⟩

/-- Claim C2: evaluating `substitute_alias` on the claim's own chained
example — aliases `a = "b x"`, `b = "c"`, vector `["a", "z"]` — returns
the vector `["c", "x"]` with count 2, not the spliced `["c", "x", "z"]`
with count 3 the splice contract promises: the final
`*argc += new_argc - 1` adjustment uses only the last iteration's
`new_argc`, so the trailing argument `"z"` is cut off. -/
theorem substitute_alias_chain_drops_trailing_arg :
    substitute_alias [("a", "b x"), ("b", "c")] ["a", "z"] = some (["c", "x"], 2) ∧
    (["c", "x"] : List String) ≠ ["c", "x", "z"] :=
  ⟨by decide, by decide⟩

/-- Claim C4 counterexample: with the two-element alias cycle
`X = "Y"`, `Y = "X"`, resolving `["X"]` yields `["X"]`, not the
documented `["Y"]` — the loop splices twice (X to Y, then Y to X) and
only then finds the original name in the Visited-Set. -/
theorem cycle_alias_result_is_not_Y :
    substVec [("X", "Y"), ("Y", "X")] ["X"] = ["X"] ∧ (["X"] : List String) ≠ ["Y"] :=
  ⟨by decide, by decide⟩

/-- Claim C4 (amended): with the alias cycle `X = "Y"`, `Y = "X"`,
resolving `["X"]` terminates, performing exactly two expansions, and
yields `["X"]` — the vector as substituted at the point the cycle is
detected, which is back at the starting name. -/
theorem cycle_alias_terminates_at_start :
    substitute_alias [("X", "Y"), ("Y", "X")] ["X"] = some (["X"], 2) := by
  decide

/-- Claim C5: with the direct self-reference `ls = "ls -l"`, resolving
`["ls"]` terminates after exactly one expansion and yields
`["ls", "-l"]`. -/
theorem self_reference_alias_one_expansion :
    substitute_alias [("ls", "ls -l")] ["ls"] = some (["ls", "-l"], 1) := by
  decide

/-- Claim C6: in a multi-segment pipeline containing a builtin segment,
the builtin runs inside a spawned child on a private copy of the session,
and the parent session's working directory, alias table, history and
PATH are untouched by it after the line completes (the parent itself
appends only the raw line to the history). -/
theorem pipeline_builtin_isolated (os : OS) (st : Session) (line : String)
    (segs : List String) (_h2 : 2 ≤ segs.length)
    (_hb : ∃ s ∈ segs, (segToks st.aliases s).length ≠ 0 ∧
        is_builtin_command ((segToks st.aliases s).headD "") = true) :
    (runPipeline_main os st line segs).1.cwd = st.cwd ∧
    (runPipeline_main os st line segs).1.aliases = st.aliases ∧
    (runPipeline_main os st line segs).1.path = st.path ∧
    (runPipeline_main os st line segs).1.history.data = st.history.data ++ [line] ∧
    (runPipeline_main os st line segs).1.history.alive = st.history.alive := by
  simp [runPipeline_main, da_put]

/-- Claim C6 witness: the pipeline `cd /tmp | true` leaves the parent at
its old working directory while the child that ran `cd` did move its own
copy to `/tmp`. -/
theorem pipeline_builtin_isolated_witness :
    ((2 ≤ (["cd /tmp ", " true\n"] : List String).length) ∧
      (∃ s ∈ (["cd /tmp ", " true\n"] : List String),
        (segToks st0.aliases s).length ≠ 0 ∧
        is_builtin_command ((segToks st0.aliases s).headD "") = true)) ∧
    ((runPipeline_main os0 st0 "cd /tmp | true\n" ["cd /tmp ", " true\n"]).1.cwd = st0.cwd ∧
      (runPipeline_main os0 st0 "cd /tmp | true\n" ["cd /tmp ", " true\n"]).1.aliases = st0.aliases ∧
      (runPipeline_main os0 st0 "cd /tmp | true\n" ["cd /tmp ", " true\n"]).1.path = st0.path ∧
      (runPipeline_main os0 st0 "cd /tmp | true\n" ["cd /tmp ", " true\n"]).1.history.data
        = st0.history.data ++ ["cd /tmp | true\n"] ∧
      (runPipeline_main os0 st0 "cd /tmp | true\n" ["cd /tmp ", " true\n"]).1.history.alive
        = st0.history.alive) ∧
    (childRun os0 st0 "cd /tmp ").cwd = "/tmp" :=
  ⟨⟨by decide, by decide⟩,
   pipeline_builtin_isolated os0 st0 "cd /tmp | true\n" ["cd /tmp ", " true\n"]
     (by decide) (by decide),
   by decide⟩

/-- Claim C7: a line holding a token opened with a single quote that is
never closed is a parse error: the tokenizer discards everything parsed
so far, reports the error, and returns the empty argument vector
(count 0). -/
theorem unterminated_quote_is_noop (s : String)
    (h : specHasUnterminatedQuote s = true) :
    parseline_no_subst s = ([], true) := by
  unfold specHasUnterminatedQuote at h
  unfold parseline_no_subst
  rw [scanUnclosed_parseLoop_err _ _ _ h]

/-- Claim C7 witness: the line `a b 'c` has an unterminated quoted token;
the two tokens already parsed are discarded and the result is the empty
vector with the error flag. -/
theorem unterminated_quote_is_noop_witness :
    specHasUnterminatedQuote "a b \x27c" = true ∧
    parseline_no_subst "a b \x27c" = ([], true) :=
  ⟨by decide, unterminated_quote_is_noop "a b \x27c" (by decide)⟩

/-- Claim C8 (amended): the `exit` builtin signals shell termination
(dispatch code 2) exactly when it has no argument beyond the name; any
extra argument — already the first — is a usage error (code 1, shell
continues). -/
theorem exit_terminate_iff_no_extra_args (os : OS) (st : Session) (rest : List String) :
    (execute_builtin os st ("exit" :: rest)).2 = if rest = [] then 2 else 1 := by
  cases rest with
  | nil => simp [execute_builtin, exit_shell]
  | cons a t => simp [execute_builtin, exit_shell]

/-- Claim C8 counterexample: `exit 0` — one extra argument, which the
claim says still signals termination — instead returns the usage-error
code 1, not the terminate code 2. -/
theorem exit_one_extra_arg_is_usage_error :
    (execute_builtin os0 st0 ["exit", "0"]).2 = 1 ∧ ((1 : Int) ≠ 2) :=
  ⟨by decide, by decide⟩

/-- Claim C9 (amended): the `src/main.c` path resolver scans a copy of
PATH and leaves the variable unchanged for every command name and every
PATH value; the `solution/wsh.c` resolver and `which_command` instead
tokenize the environment string in place (see the counterexample). -/
theorem get_command_path_main_preserves_path (ex : String → Bool)
    (p : Option String) (cmd : String) :
    (get_command_path_main ex p cmd).2 = p := rfl

/-- Claim C9 counterexample: resolving `x` against `PATH=/a:/b` through
`solution/wsh.c`'s `get_command_path`, or through `which x`, truncates
PATH in place to `/a`. -/
theorem path_scan_truncates_path :
    (get_command_path_wsh noExec (some "/a:/b") "x").2 = some "/a" ∧
    (which_command [] noExec (some "/a:/b") ["which", "x"]).2 = some "/a" ∧
    (some "/a" : Option String) ≠ some "/a:/b" :=
  ⟨by decide, by decide, by decide⟩

/-- Claim C10: the out-of-range accessors of the dynamic array do not
leave the container unchanged — `da_get` and `da_delete` deallocate it
as a side effect of answering not-found — so a `history N` with an
out-of-range N reports the invalid argument and destroys the history
store. -/
theorem da_out_of_range_frees_container :
    (∀ (d : DynArr) (i : Nat), d.data.length ≤ i →
        da_get d i = (none, { d with alive := false })) ∧
    (∀ (d : DynArr) (i : Nat), d.data.length ≤ i →
        da_delete d i = { d with alive := false }) ∧
    (∀ (d : DynArr) (a : String) (v : Int),
        strtolRaw a.toList = (v, []) →
        d.data.length ≤ toSizeT (wrap32 (clampLong v) - 1) →
        show_history d ["history", a] = (1, { d with alive := false })) := by
  refine ⟨?_, ?_, ?_⟩
  · intro d i h
    simp [da_get, h]
  · intro d i h
    simp [da_delete, h]
  · intro d a v hparse hrange
    have hparse2 : strtolRaw a.data = (v, []) := hparse
    simp [show_history, hparse, hparse2, da_get, hrange]

/-- Claim C10 witness: with three history entries, `history 4` answers
the invalid-argument error and frees the history store; a bare
out-of-range `da_get` and `da_delete` likewise free their container. -/
theorem da_out_of_range_frees_container_witness :
    da_get ⟨["a"], true⟩ 3 = (none, ⟨["a"], false⟩) ∧
    da_delete ⟨["a"], true⟩ 3 = ⟨["a"], false⟩ ∧
    show_history ⟨["e one\n", "e two\n", "e three\n"], true⟩ ["history", "4"] =
      (1, ⟨["e one\n", "e two\n", "e three\n"], false⟩) :=
  ⟨da_out_of_range_frees_container.1 ⟨["a"], true⟩ 3 (by decide),
   da_out_of_range_frees_container.2.1 ⟨["a"], true⟩ 3 (by decide),
   da_out_of_range_frees_container.2.2 ⟨["e one\n", "e two\n", "e three\n"], true⟩ "4" 4
     (by decide) (by decide)⟩
